import Mathlib

/-!
Verification of the hypothesis-testing calculations of the stats-play notebooks.

The notebook arithmetic is embedded over `ℚ` (the notebook inputs are integer
counts and dyadic floats, and every statistic below is a rational expression of
them), except where a square root or an external distribution function forces
`ℝ`.  External library routines (scipy survival functions, the Python random
module) are not part of the repository; definitions standing in for them are
marked `Modelled from the spec:` in their doc comment.
-/

/-! ## Chi-squared notebook: goodness of fit -/

/-- Embeds the notebook column `expected_shirts_normed`:
`expected * observed.sum() / expected.sum()`, elementwise over the column. -/
def expected_shirts_normed (observed expected : List ℚ) : List ℚ :=
  expected.map (fun e => e * observed.sum / expected.sum)

/-- Embeds the goodness-of-fit statistic `chi_2 = np.sum((observed - normed) ** 2 / normed)`
where `normed` is the rescaled expected column. -/
def chi_2_gof (observed expected : List ℚ) : ℚ :=
  ((observed.zip (expected_shirts_normed observed expected)).map
    (fun p => (p.1 - p.2) ^ 2 / p.2)).sum

/-! ## Chi-squared notebook: contingency table -/

/-- Row total of a table, as read off the `Total` column of `df_totals`. -/
def row_total (t : List (List ℚ)) (i : ℕ) : ℚ := (t.getD i []).sum

/-- Column total of a table, as read off the `Total` row of `df_totals`. -/
def col_total (t : List (List ℚ)) (j : ℕ) : ℚ := (t.map (fun r => r.getD j 0)).sum

/-- Grand total of a table (`df_tots.loc["Total", "Total"]`). -/
def grand_total (t : List (List ℚ)) : ℚ := (t.map List.sum).sum

/-- Embeds `get_expected(df_tots, row_id, column_id)`:
row total times column total over grand total. -/
def get_expected (t : List (List ℚ)) (i j : ℕ) : ℚ :=
  row_total t i * col_total t j / grand_total t

/-- Number of columns of the table (the data frame's fixed column set). -/
def n_cols (t : List (List ℚ)) : ℕ := (t.headD []).length

/-- Embeds the contingency-table statistic accumulation loop
`for row_id in df.index: for col_id in df.columns: chi_2 += (o_i - e_i) ** 2 / e_i`. -/
def chi_2_table (t : List (List ℚ)) : ℚ :=
  ((List.range t.length).map (fun i =>
    ((List.range (n_cols t)).map (fun j =>
      ((t.getD i []).getD j 0 - get_expected t i j) ^ 2 / get_expected t i j)).sum)).sum

/-- Degrees of freedom of the contingency test, as stated in the notebook:
`(number of rows - 1) x (number of columns - 1)`. -/
def table_dof (nrows ncols : ℕ) : ℕ := (nrows - 1) * (ncols - 1)

/-- Modelled from the spec: the external chi-squared distribution library is a
black-box oracle supplying the upper tail (`1.0 - scipy.stats.chi2.cdf(x, 2)`).
For two degrees of freedom the chi-squared survival function is `exp (-x/2)`. -/
noncomputable def chi2_survival_two (x : ℝ) : ℝ := Real.exp (-x / 2)

/-! ## Generic list helper lemmas -/

theorem list_sum_map_mul_const (l : List ℚ) (k : ℚ) :
    (l.map (fun e => e * k)).sum = l.sum * k := by
  induction l with
  | nil => simp
  | cons a t ih => simp [ih, add_mul]

theorem list_sum_map_const_mul (l : List ℚ) (k : ℚ) :
    (l.map (fun e => k * e)).sum = k * l.sum := by
  induction l with
  | nil => simp
  | cons a t ih => simp [ih, mul_add]

theorem list_sum_nonneg (l : List ℚ) (h : ∀ x ∈ l, 0 ≤ x) : 0 ≤ l.sum := by
  induction l with
  | nil => simp
  | cons a t ih =>
    simp only [List.sum_cons]
    have ha := h a (by simp)
    have ht := ih (fun x hx => h x (by simp [hx]))
    linarith

theorem finset_sum_range_eq_list (n : ℕ) (f : ℕ → ℚ) :
    ∑ i ∈ Finset.range n, f i = ((List.range n).map f).sum := by
  induction n with
  | zero => simp
  | succ m ih => simp [Finset.sum_range_succ, List.range_succ, ih]

theorem list_sum_map_eq_range_getD (l : List ℚ) (g : ℚ → ℚ) :
    (l.map g).sum = ∑ i ∈ Finset.range l.length, g (l.getD i 0) := by
  induction l with
  | nil => simp
  | cons a t ih =>
    rw [List.map_cons, List.sum_cons, List.length_cons, Finset.sum_range_succ', ih]
    simp [add_comm]

theorem list_zip_sum_eq_range (xs ys : List ℚ) (g : ℚ → ℚ → ℚ)
    (h : xs.length = ys.length) :
    ((xs.zip ys).map (fun p => g p.1 p.2)).sum =
      ∑ i ∈ Finset.range xs.length, g (xs.getD i 0) (ys.getD i 0) := by
  induction xs generalizing ys with
  | nil => simp
  | cons a t ih =>
    cases ys with
    | nil => simp at h
    | cons b u =>
      rw [List.zip_cons_cons, List.map_cons, List.sum_cons, List.length_cons,
        Finset.sum_range_succ', ih u (by simpa using h)]
      simp [add_comm]

/-! ## T-test notebook: sample statistics -/

/-- Embeds `xbar = sum(samples) / n`. -/
def xbar (l : List ℚ) : ℚ := l.sum / l.length

/-- Embeds the sample variance `sum([(x - xbar) ** 2 for x in samples]) / (n - 1)`
(the square of the notebook's `s`). -/
def s_sqr (l : List ℚ) : ℚ :=
  (l.map (fun x => (x - xbar l) ^ 2)).sum / ((l.length : ℚ) - 1)

/-- Embeds the one-sample t statistic `t_score = (xbar - mu0) / (s / math.sqrt(n))`. -/
noncomputable def t_score_one_sample (sample : List ℚ) (mu0 : ℚ) : ℝ :=
  ((xbar sample - mu0 : ℚ) : ℝ) /
    (Real.sqrt ((s_sqr sample : ℚ) : ℝ) / Real.sqrt (sample.length : ℝ))

/-- Embeds the Welch t statistic
`t_score = (xbar_1 - xbar_2) / math.sqrt(s_1_sqr/n_1 + s_2_sqr/n_2)`. -/
noncomputable def t_score_welch (s1 s2 : List ℚ) : ℝ :=
  ((xbar s1 - xbar s2 : ℚ) : ℝ) /
    Real.sqrt ((s_sqr s1 / s1.length + s_sqr s2 / s2.length : ℚ) : ℝ)

/-- Embeds `get_welchs_ttest_dof(s1sqr, s2sqr, n1, n2)` from the notebook. -/
def get_welchs_ttest_dof (s1sqr s2sqr n1 n2 : ℚ) : ℚ :=
  (s1sqr / n1 + s2sqr / n2) ^ 2 /
    ((s1sqr / n1) ^ 2 / (n1 - 1) + (s2sqr / n2) ^ 2 / (n2 - 1))

/-- The notebook's call `get_welchs_ttest_dof(s_1_sqr, s_2_sqr, n_1, n_2)`
applied to two sample sets. -/
def welch_dof (s1 s2 : List ℚ) : ℚ :=
  get_welchs_ttest_dof (s_sqr s1) (s_sqr s2) s1.length s2.length

/-- Embeds the pooled test's `dof = n_1 + n_2 - 2`. -/
def pooled_dof (s1 s2 : List ℚ) : ℕ := s1.length + s2.length - 2

/-- Embeds `s_pooled = math.sqrt(((n_1-1)*s_1_sqr + (n_2-1)*s_2_sqr)/dof)`. -/
noncomputable def s_pooled (s1 s2 : List ℚ) : ℝ :=
  Real.sqrt (((((s1.length : ℚ) - 1) * s_sqr s1 + ((s2.length : ℚ) - 1) * s_sqr s2) /
    ((s1.length : ℚ) + (s2.length : ℚ) - 2) : ℚ) : ℝ)

/-- Embeds the pooled t statistic
`t_score = (xbar_1 - xbar_2) / (s_pooled * math.sqrt(1.0/n_1 + 1.0/n_2))`. -/
noncomputable def t_score_pooled (s1 s2 : List ℚ) : ℝ :=
  ((xbar s1 - xbar s2 : ℚ) : ℝ) /
    (s_pooled s1 s2 * Real.sqrt ((1 / s1.length + 1 / s2.length : ℚ) : ℝ))

/-- Embeds `deltas = np.array(results_2) - np.array(results_1)`. -/
def deltas (results1 results2 : List ℚ) : List ℚ := List.zipWith (· - ·) results2 results1

/-- Embeds the paired t statistic: per-index deltas, then the one-sample t score
`(xbar - mu0)/(s/math.sqrt(n))` on the deltas with the hypothesized difference
`mu0` as reference mean. -/
noncomputable def t_score_paired (results1 results2 : List ℚ) (mu0 : ℚ) : ℝ :=
  t_score_one_sample (deltas results1 results2) mu0

/-! ## Modelled external interfaces -/

/-- Modelled from the spec: the error raised on malformed inputs
(`InvalidInputError`); the notebook itself has no error wrapper. -/
inductive InvalidInputError where
  | invalidInput
deriving DecidableEq

/-- Modelled from the spec: `one_sample_t(sample, hypothesized_mean)` of the
Hypothesis-Test Calculator, raising `InvalidInputError` when the sample size is
below 2 or the sample variance is not positive (division by zero in the
statistic), and otherwise returning the statistic and degrees of freedom `n - 1`
(the external p-value oracle is kept out of the bundle). -/
noncomputable def one_sample_t (sample : List ℚ) (mu0 : ℚ) :
    Except InvalidInputError (ℝ × ℚ) :=
  if sample.length < 2 then .error .invalidInput
  else if s_sqr sample ≤ 0 then .error .invalidInput
  else .ok (t_score_one_sample sample mu0, (sample.length : ℚ) - 1)

/-- Modelled from the spec: the one-tailed survival-function value of a
black-box reference distribution `m` on `ℝ` at a point, `m(Ici x)`. -/
noncomputable def survival (m : MeasureTheory.Measure ℝ) (x : ℝ) : ℝ :=
  (m (Set.Ici x)).toReal

/-- Embeds `p_value_2tail = sf(abs(score)) * 2` with the survival function of
the reference distribution `m` (`scipy.stats.norm.sf` in the notebook). -/
noncomputable def p_value_2tail (m : MeasureTheory.Measure ℝ) (z : ℝ) : ℝ :=
  survival m |z| * 2

/-- Modelled from the spec: the deterministic sample of 15 uniform[0,1) values
drawn from the fixed seed (`random.seed(42)` and 15 calls of `random.random()`
of the external Python random module); each draw is the exact dyadic rational
produced by the seeded Mersenne Twister. -/
def samples_seed42 : List ℚ :=
  [5759444582531269 / 9007199254740992, 225276855802115 / 9007199254740992,
   1238621935723127 / 4503599627370496, 2010503594304263 / 9007199254740992,
   3316771485678143 / 4503599627370496, 3047583559399629 / 4503599627370496,
   502252446082889 / 562949953421312, 783075388467729 / 9007199254740992,
   3800333899828131 / 9007199254740992, 268389492715941 / 9007199254740992,
   246164475463637 / 1125899906842624, 4551835774384025 / 9007199254740992,
   119507383180163 / 4503599627370496, 895485169539615 / 4503599627370496,
   2926819311817745 / 4503599627370496]

/-- Modelled from the spec: the external Student-t survival function at 14
degrees of freedom (`scipy.stats.t.sf(x, df=14)`), in its closed algebraic form:
with `s = x / sqrt(x^2 + 14)` the survival value is
`1/2 - (3003/2048) * (s - 2 s^3 + 3 s^5 - (20/7) s^7 + (5/3) s^9 - (6/11) s^11 + (1/13) s^13)`. -/
noncomputable def t_survival_14 (x : ℝ) : ℝ :=
  1 / 2 - 3003 / 2048 *
    (let s := x / Real.sqrt (x ^ 2 + 14)
     s - 2 * s ^ 3 + 3 * s ^ 5 - 20 / 7 * s ^ 7 + 5 / 3 * s ^ 9 -
       6 / 11 * s ^ 11 + 1 / 13 * s ^ 13)

/-! ## Claim C1: goodness of fit normalizes expected, then sums `(O - E)^2 / E` -/

/-- C1: for equal-length `observed` and `expected` with all expected values
positive, the goodness-of-fit computation rescales each expected value by
`sum(observed)/sum(expected)` — so the rescaled expected column sums to the
observed total — and the returned statistic is the sum over the cells of
`(O_i - E_i)^2 / E_i` with the rescaled expected values. -/
theorem chi_2_gof_normalizes_then_sums (observed expected : List ℚ)
    (hlen : observed.length = expected.length)
    (hpos : ∀ e ∈ expected, 0 < e) :
    (expected_shirts_normed observed expected).sum = observed.sum ∧
    (∀ i < expected.length, (expected_shirts_normed observed expected).getD i 0 =
      expected.getD i 0 * observed.sum / expected.sum) ∧
    chi_2_gof observed expected =
      ∑ i ∈ Finset.range observed.length,
        (observed.getD i 0 - (expected_shirts_normed observed expected).getD i 0) ^ 2 /
          (expected_shirts_normed observed expected).getD i 0 := by
  refine ⟨?_, ?_, ?_⟩
  · by_cases hne : expected = []
    · subst hne
      have : observed = [] := List.length_eq_zero.mp (by simpa using hlen)
      subst this
      simp [expected_shirts_normed]
    · have hSE : 0 < expected.sum := List.sum_pos expected hpos hne
      simp only [expected_shirts_normed, mul_div_assoc]
      rw [list_sum_map_mul_const, mul_comm, div_mul_cancel₀ _ (ne_of_gt hSE)]
  · intro i hi
    have hi' : i < (expected_shirts_normed observed expected).length := by
      simpa [expected_shirts_normed] using hi
    rw [List.getD_eq_getElem _ _ hi', List.getD_eq_getElem _ _ hi]
    simp [expected_shirts_normed]
  · have h := list_zip_sum_eq_range observed (expected_shirts_normed observed expected)
      (fun a b => (a - b) ^ 2 / b)
      (by simpa [expected_shirts_normed] using hlen)
    simpa [chi_2_gof] using h

/-- Closed witness for C1 at the notebook's goodness-of-fit example. -/
theorem chi_2_gof_normalizes_then_sums_witness :
    (expected_shirts_normed [28, 32, 27] [30, 35, 30]).sum = ([28, 32, 27] : List ℚ).sum :=
  (chi_2_gof_normalizes_then_sums [28, 32, 27] [30, 35, 30] (by decide) (by decide)).1

/-! ## Claim C4: invariance of the statistic under uniform rescaling of expected -/

/-- C4: for every observed sequence, positive expected sequence and positive
scale factor `c`, the goodness-of-fit statistic computed after normalization on
`(observed, c * expected)` equals the one computed on `(observed, expected)`. -/
theorem chi_2_gof_rescale_invariant (observed expected : List ℚ) (c : ℚ)
    (hc : 0 < c) (_hpos : ∀ e ∈ expected, 0 < e) :
    chi_2_gof observed (expected.map (fun e => c * e)) = chi_2_gof observed expected := by
  have hc0 : c ≠ 0 := ne_of_gt hc
  have hsum : (expected.map (fun e => c * e)).sum = c * expected.sum :=
    list_sum_map_const_mul expected c
  have hnormed : expected_shirts_normed observed (expected.map (fun e => c * e)) =
      expected_shirts_normed observed expected := by
    simp only [expected_shirts_normed, List.map_map, hsum, Function.comp]
    refine List.map_congr_left (fun e _ => ?_)
    simp only [Function.comp_apply]
    rw [mul_assoc, mul_div_mul_left _ _ hc0]
  simp only [chi_2_gof, hnormed]

/-- Closed witness for C4 at the notebook's example rescaled by 2. -/
theorem chi_2_gof_rescale_invariant_witness :
    chi_2_gof [28, 32, 27] (([30, 35, 30] : List ℚ).map (fun e => 2 * e)) =
      chi_2_gof [28, 32, 27] [30, 35, 30] :=
  chi_2_gof_rescale_invariant [28, 32, 27] [30, 35, 30] 2 (by decide) (by decide)

/-! ## Claim C9: both chi-squared statistics are non-negative -/

/-- C9: with non-negative observed counts and positive expected values the
goodness-of-fit statistic is non-negative, and with positive row and column
totals the contingency-table statistic is non-negative: each is a sum of
squared differences divided by a non-negative expected value. -/
theorem chi_2_stats_nonneg :
    (∀ observed expected : List ℚ, (∀ o ∈ observed, 0 ≤ o) → (∀ e ∈ expected, 0 < e) →
      0 ≤ chi_2_gof observed expected) ∧
    (∀ t : List (List ℚ), (∀ i < t.length, 0 < row_total t i) →
      (∀ j < n_cols t, 0 < col_total t j) → 0 ≤ chi_2_table t) := by
  constructor
  · intro observed expected hobs hpos
    apply list_sum_nonneg
    intro y hy
    obtain ⟨⟨a, b⟩, hp, rfl⟩ := List.mem_map.mp hy
    have hp2 : b ∈ expected_shirts_normed observed expected := (List.of_mem_zip hp).2
    obtain ⟨e, he, hpe⟩ := List.mem_map.mp hp2
    have hSO : 0 ≤ observed.sum := list_sum_nonneg observed hobs
    have hSE : 0 ≤ expected.sum :=
      list_sum_nonneg expected (fun x hx => (hpos x hx).le)
    have hE : 0 ≤ b := by
      rw [← hpe]
      exact div_nonneg (mul_nonneg (hpos e he).le hSO) hSE
    exact div_nonneg (sq_nonneg _) hE
  · intro t hrow hcol
    have hgrand : 0 ≤ grand_total t := by
      apply list_sum_nonneg
      intro x hx
      obtain ⟨r, hr, rfl⟩ := List.mem_map.mp hx
      obtain ⟨i, hi, hri⟩ := List.mem_iff_getElem.mp hr
      have : row_total t i = r.sum := by
        rw [row_total, List.getD_eq_getElem _ _ hi, hri]
      exact le_of_lt (this ▸ hrow i hi)
    apply list_sum_nonneg
    intro y hy
    obtain ⟨i, hi, rfl⟩ := List.mem_map.mp hy
    have hi' : i < t.length := List.mem_range.mp hi
    apply list_sum_nonneg
    intro z hz
    obtain ⟨j, hj, rfl⟩ := List.mem_map.mp hz
    have hj' : j < n_cols t := List.mem_range.mp hj
    have hE : 0 ≤ get_expected t i j :=
      div_nonneg (mul_nonneg (hrow i hi').le (hcol j hj').le) hgrand
    exact div_nonneg (sq_nonneg _) hE

/-- Closed witness for C9 at the notebook's two running examples. -/
theorem chi_2_stats_nonneg_witness :
    0 ≤ chi_2_gof [28, 32, 27] [30, 35, 30] ∧
      0 ≤ chi_2_table [[28, 61], [32, 62], [27, 57]] := by
  constructor
  · exact chi_2_stats_nonneg.1 [28, 32, 27] [30, 35, 30] (by decide) (by decide)
  · refine chi_2_stats_nonneg.2 [[28, 61], [32, 62], [27, 57]] ?_ ?_
    · intro i hi
      simp only [List.length_cons, List.length_nil] at hi
      interval_cases i <;> norm_num [row_total]
    · intro j hj
      have hj' : j < 2 := by simpa [n_cols] using hj
      interval_cases j <;> norm_num [col_total]

/-! ## Claim C2: contingency test formula, dof, and the notebook scenario -/

/-- C2: the contingency statistic is the sum over all cells of
`(O_ij - E_ij)^2 / E_ij` with `E_ij = row_total_i * col_total_j / grand_total`;
the degrees of freedom are `(R-1)*(C-1)`; and on the notebook table
`Primark [28,61], Debenhams [32,62], Next [27,57]` the statistic is
approximately 0.1496, the dof is 2, and the chi-squared p-value is
approximately 0.9279. -/
theorem chi_2_table_formula_and_example :
    (∀ t : List (List ℚ), chi_2_table t =
      ∑ i ∈ Finset.range t.length, ∑ j ∈ Finset.range (n_cols t),
        ((t.getD i []).getD j 0 - row_total t i * col_total t j / grand_total t) ^ 2 /
          (row_total t i * col_total t j / grand_total t)) ∧
    |chi_2_table [[28, 61], [32, 62], [27, 57]] - 0.1496| < 1 / 1000 ∧
    table_dof 3 2 = 2 ∧
    |chi2_survival_two ((chi_2_table [[28, 61], [32, 62], [27, 57]] : ℚ) : ℝ) - 0.9279| <
      1 / 1000 := by
  have hstat : chi_2_table [[28, 61], [32, 62], [27, 57]] = 114187 / 763280 := by
    have h3 : List.range 3 = [0, 1, 2] := rfl
    have h2 : List.range 2 = [0, 1] := rfl
    norm_num [chi_2_table, n_cols, get_expected, row_total, col_total, grand_total, h3, h2]
  refine ⟨?_, ?_, rfl, ?_⟩
  · intro t
    simp only [chi_2_table, get_expected, finset_sum_range_eq_list]
  · rw [hstat]
    norm_num [abs_lt]
  · rw [hstat]
    have hX : ((114187 / 763280 : ℚ) : ℝ) = 114187 / 763280 := by norm_num
    rw [chi2_survival_two, hX]
    set x : ℝ := -(114187 / 763280 : ℝ) / 2 with hx
    have habs : |x| = 114187 / 1526560 := by
      rw [hx, abs_of_nonpos (by norm_num)]
      norm_num
    have hb := Real.exp_bound (x := x) (by rw [habs]; norm_num) (n := 3) (by norm_num)
    have hS : ∑ m ∈ Finset.range 3, x ^ m / (m.factorial : ℝ) = 1 + x + x ^ 2 / 2 := by
      simp [Finset.sum_range_succ, Nat.factorial]
    rw [hS] at hb
    have hrem : |x| ^ 3 * ((3 : ℕ).succ / ((3 : ℕ).factorial * (3 : ℕ) : ℝ)) =
        (114187 / 1526560 : ℝ) ^ 3 * (4 / 18) := by
      rw [habs]
      norm_num [Nat.factorial]
    rw [hrem] at hb
    have htri := abs_sub_le (Real.exp x) (1 + x + x ^ 2 / 2) 0.9279
    have hS2 : |1 + x + x ^ 2 / 2 - 0.9279| < 98 / 1000000 := by
      rw [hx, abs_of_nonneg (by norm_num)]
      norm_num
    calc |Real.exp x - 0.9279|
        ≤ |Real.exp x - (1 + x + x ^ 2 / 2)| + |1 + x + x ^ 2 / 2 - 0.9279| := htri
      _ < (114187 / 1526560 : ℝ) ^ 3 * (4 / 18) + 98 / 1000000 := by linarith
      _ < 1 / 1000 := by norm_num

/-! ## Claim C6: constant sample has zero variance and is rejected -/

theorem list_sum_const (l : List ℚ) (c : ℚ) (h : ∀ x ∈ l, x = c) :
    l.sum = (l.length : ℚ) * c := by
  induction l with
  | nil => simp
  | cons a t ih =>
    have ha : a = c := h a (by simp)
    have ht := ih (fun x hx => h x (by simp [hx]))
    simp only [List.sum_cons, ha, ht, List.length_cons]
    push_cast
    ring

theorem xbar_const (l : List ℚ) (c : ℚ) (hne : l ≠ []) (h : ∀ x ∈ l, x = c) :
    xbar l = c := by
  have hn : (l.length : ℚ) ≠ 0 := by
    exact_mod_cast Nat.pos_iff_ne_zero.mp (List.length_pos.mpr hne)
  rw [xbar, list_sum_const l c h, mul_comm, mul_div_assoc, div_self hn, mul_one]

/-- C6: a sample whose values all equal a constant has sample variance 0, and
the one-sample T-test against that constant raises `InvalidInputError` instead
of returning a result. -/
theorem one_sample_t_const_sample (sample : List ℚ) (c : ℚ)
    (h : ∀ x ∈ sample, x = c) :
    s_sqr sample = 0 ∧ one_sample_t sample c = .error .invalidInput := by
  have hvar : s_sqr sample = 0 := by
    by_cases hne : sample = []
    · subst hne
      simp [s_sqr, xbar]
    · have hnum : (sample.map (fun x => (x - xbar sample) ^ 2)).sum = 0 := by
        apply List.sum_eq_zero
        intro y hy
        obtain ⟨x, hx, rfl⟩ := List.mem_map.mp hy
        rw [h x hx, xbar_const sample c hne h, sub_self]
        norm_num
      rw [s_sqr, hnum, zero_div]
  refine ⟨hvar, ?_⟩
  unfold one_sample_t
  by_cases hlen : sample.length < 2
  · rw [if_pos hlen]
  · rw [if_neg hlen, if_pos (le_of_eq hvar)]

/-- Closed witness for C6 at the constant sample `[3, 3, 3]`. -/
theorem one_sample_t_const_sample_witness :
    s_sqr [3, 3, 3] = 0 ∧ one_sample_t [3, 3, 3] 3 = .error .invalidInput :=
  one_sample_t_const_sample [3, 3, 3] 3 (by decide)

/-! ## Claim C5: p-values lie in the unit interval -/

open MeasureTheory ProbabilityTheory in
/-- C5: for any reference distribution that is a probability measure on `ℝ`,
symmetric about 0 and without an atom at 0 (as the standard normal and Student t
distributions are), every survival-function p-value lies in `[0, 1]`, and the
two-tailed p-value — twice the one-tailed survival value at the absolute
statistic — also never exceeds 1. -/
theorem p_values_in_unit_interval (m : Measure ℝ) [IsProbabilityMeasure m]
    (hsym : m.map (fun x => -x) = m) (hatom : m {0} = 0) (z : ℝ) :
    0 ≤ survival m z ∧ survival m z ≤ 1 ∧
      0 ≤ p_value_2tail m z ∧ p_value_2tail m z ≤ 1 := by
  have hfin : ∀ s : Set ℝ, m s ≠ ⊤ := fun s => measure_ne_top m s
  have h1 : m (Set.Ici 0) = m (Set.Iic 0) := by
    conv_lhs => rw [← hsym]
    rw [Measure.map_apply measurable_neg measurableSet_Ici]
    congr 1
    ext y
    simp
  have h2 : m (Set.Iic 0) = m (Set.Iio 0) + m {0} := by
    rw [← Set.Iio_union_right, measure_union _ (measurableSet_singleton 0)]
    refine Set.disjoint_left.mpr (fun a ha hb => ?_)
    simp only [Set.mem_Iio, Set.mem_singleton_iff] at ha hb
    exact absurd hb (ne_of_lt ha)
  have h3 : m (Set.Ici 0) + m (Set.Iio 0) = 1 := by
    rw [← Set.compl_Ici (a := (0 : ℝ)), measure_add_measure_compl measurableSet_Ici]
    exact measure_univ
  have h4 : m (Set.Ici 0) + m (Set.Ici 0) = 1 := by
    rw [h1, h2, hatom, add_zero] at *
    exact h3
  have hhalfR : (m (Set.Ici 0)).toReal = 1 / 2 := by
    have h5 := congrArg ENNReal.toReal h4
    rw [ENNReal.toReal_add (hfin _) (hfin _)] at h5
    simp only [ENNReal.one_toReal] at h5
    linarith
  have hs0 : survival m |z| ≤ 1 / 2 := by
    have hmono : m (Set.Ici |z|) ≤ m (Set.Ici 0) :=
      measure_mono (Set.Ici_subset_Ici.mpr (abs_nonneg z))
    have h6 := ENNReal.toReal_mono (hfin _) hmono
    rw [hhalfR] at h6
    exact h6
  refine ⟨ENNReal.toReal_nonneg, ?_, ?_, ?_⟩
  · have h7 := ENNReal.toReal_mono (by norm_num) (prob_le_one (μ := m) (s := Set.Ici z))
    simpa using h7
  · exact mul_nonneg ENNReal.toReal_nonneg (by norm_num)
  · rw [p_value_2tail]
    linarith

open MeasureTheory ProbabilityTheory in
/-- Closed witness for C5: the standard normal distribution at statistic 1.5. -/
theorem p_values_in_unit_interval_witness :
    0 ≤ survival (gaussianReal 0 1) 1.5 ∧ survival (gaussianReal 0 1) 1.5 ≤ 1 ∧
      0 ≤ p_value_2tail (gaussianReal 0 1) 1.5 ∧
        p_value_2tail (gaussianReal 0 1) 1.5 ≤ 1 :=
  p_values_in_unit_interval (gaussianReal 0 1)
    (by
      have h := gaussianReal_map_const_mul (μ := 0) (v := 1) (-1)
      have hfun : (fun x : ℝ => -x) = (fun x : ℝ => -1 * x) := by funext x; ring
      have hv : (⟨(-1 : ℝ) ^ 2, sq_nonneg _⟩ : NNReal) * 1 = 1 := by
        apply NNReal.coe_injective
        push_cast
        norm_num
      rw [hfun, show (fun x : ℝ => -1 * x) = ((-1 : ℝ) * ·) from rfl, h, hv]
      norm_num)
    (gaussianReal_absolutelyContinuous 0 one_ne_zero Real.volume_singleton) 1.5

/-! ## Claim C3: pooled versus Welch when the sample variances are equal -/

theorem s_sqr_nonneg (l : List ℚ) : 0 ≤ s_sqr l := by
  rcases Nat.eq_zero_or_pos l.length with h | h
  · have hl : l = [] := List.length_eq_zero.mp h
    subst hl
    simp [s_sqr, xbar]
  · apply div_nonneg
    · apply list_sum_nonneg
      intro y hy
      obtain ⟨x, _, rfl⟩ := List.mem_map.mp hy
      exact sq_nonneg _
    · have : (1 : ℚ) ≤ l.length := by exact_mod_cast h
      linarith

/-- C3 counterexample: the samples `[0,1,2]` and `[0,0,1,2,2]` have exactly equal
sample variances (both 1), yet the Welch degrees of freedom `256/59` differ from
the pooled degrees of freedom `6`, so the two tests do not produce identical
results. -/
theorem pooled_welch_counterexample :
    s_sqr [0, 1, 2] = s_sqr [0, 0, 1, 2, 2] ∧
      welch_dof [0, 1, 2] [0, 0, 1, 2, 2] ≠ (pooled_dof [0, 1, 2] [0, 0, 1, 2, 2] : ℚ) := by
  constructor
  · norm_num [s_sqr, xbar]
  · norm_num [welch_dof, get_welchs_ttest_dof, s_sqr, xbar, pooled_dof]

/-- C3 (amended): when the two sample variances are exactly equal the pooled and
Welch t statistics coincide; the degrees of freedom (and with them the p-value
for any survival function) coincide when additionally the two sample sizes are
equal and the common variance is nonzero, but not in general. -/
theorem pooled_welch_agree_of_eq_var (s1 s2 : List ℚ)
    (h1 : 2 ≤ s1.length) (h2 : 2 ≤ s2.length) (hvar : s_sqr s1 = s_sqr s2) :
    t_score_welch s1 s2 = t_score_pooled s1 s2 ∧
      (s1.length = s2.length → s_sqr s1 ≠ 0 →
        welch_dof s1 s2 = (pooled_dof s1 s2 : ℚ) ∧
        ∀ sf : ℝ → ℝ → ℝ,
          sf |t_score_welch s1 s2| ((welch_dof s1 s2 : ℚ) : ℝ) =
            sf |t_score_pooled s1 s2| ((pooled_dof s1 s2 : ℕ) : ℝ)) := by
  have hn1 : (2 : ℚ) ≤ s1.length := by exact_mod_cast h1
  have hn2 : (2 : ℚ) ≤ s2.length := by exact_mod_cast h2
  have ht : t_score_welch s1 s2 = t_score_pooled s1 s2 := by
    have hden : (s1.length : ℚ) + (s2.length : ℚ) - 2 ≠ 0 := by
      intro h
      rw [sub_eq_zero] at h
      nlinarith
    have harg : ((((s1.length : ℚ) - 1) * s_sqr s1 + ((s2.length : ℚ) - 1) * s_sqr s2) /
        ((s1.length : ℚ) + (s2.length : ℚ) - 2) : ℚ) = s_sqr s1 := by
      rw [← hvar]
      rw [show ((s1.length : ℚ) - 1) * s_sqr s1 + ((s2.length : ℚ) - 1) * s_sqr s1 =
        ((s1.length : ℚ) + (s2.length : ℚ) - 2) * s_sqr s1 from by ring]
      exact mul_div_cancel_left₀ _ hden
    have key : Real.sqrt ((s_sqr s1 / s1.length + s_sqr s1 / s2.length : ℚ) : ℝ) =
        Real.sqrt ((s_sqr s1 : ℚ) : ℝ) *
          Real.sqrt ((1 / s1.length + 1 / s2.length : ℚ) : ℝ) := by
      rw [← Real.sqrt_mul (by exact_mod_cast s_sqr_nonneg s1)]
      congr 1
      push_cast
      ring
    rw [t_score_welch, t_score_pooled, s_pooled, harg, ← hvar, key]
  refine ⟨ht, fun hlen hv => ?_⟩
  have hdof : welch_dof s1 s2 = (pooled_dof s1 s2 : ℚ) := by
    have hn0 : (s1.length : ℚ) ≠ 0 := by linarith
    have hn1' : (s1.length : ℚ) - 1 ≠ 0 := by
      intro h
      rw [sub_eq_zero] at h
      linarith
    have hcast : (pooled_dof s1 s2 : ℚ) = (s1.length : ℚ) + (s2.length : ℚ) - 2 := by
      rw [pooled_dof]
      have hle : 2 ≤ s1.length + s2.length := le_trans h1 (Nat.le_add_right _ _)
      push_cast [Nat.cast_sub hle]
      ring
    rw [hcast, welch_dof, get_welchs_ttest_dof, ← hvar, ← hlen]
    field_simp
    ring
  refine ⟨hdof, fun sf => ?_⟩
  rw [ht, hdof]
  norm_num

/-- Closed witness for the amended C3 at the equal-variance, equal-size samples
`[0,1,2]` and `[1,2,3]`. -/
theorem pooled_welch_agree_of_eq_var_witness :
    t_score_welch [0, 1, 2] [1, 2, 3] = t_score_pooled [0, 1, 2] [1, 2, 3] ∧
      (([0, 1, 2] : List ℚ).length = ([1, 2, 3] : List ℚ).length →
        s_sqr [0, 1, 2] ≠ 0 →
        welch_dof [0, 1, 2] [1, 2, 3] = (pooled_dof [0, 1, 2] [1, 2, 3] : ℚ) ∧
        ∀ sf : ℝ → ℝ → ℝ,
          sf |t_score_welch [0, 1, 2] [1, 2, 3]| ((welch_dof [0, 1, 2] [1, 2, 3] : ℚ) : ℝ) =
            sf |t_score_pooled [0, 1, 2] [1, 2, 3]|
              ((pooled_dof [0, 1, 2] [1, 2, 3] : ℕ) : ℝ)) :=
  pooled_welch_agree_of_eq_var [0, 1, 2] [1, 2, 3] (by decide) (by decide)
    (by norm_num [s_sqr, xbar])

/-! ## Claim C8: Welch statistic, Welch-Satterthwaite dof, non-integrality -/

theorem list_sum_eq_range_getD (l : List ℚ) :
    l.sum = ∑ i ∈ Finset.range l.length, l.getD i 0 := by
  simpa using list_sum_map_eq_range_getD l id

/-- The sample variance written as an indexed sum with the `n - 1` denominator. -/
theorem s_sqr_spec (l : List ℚ) :
    s_sqr l = (∑ i ∈ Finset.range l.length,
        (l.getD i 0 - (∑ j ∈ Finset.range l.length, l.getD j 0) / l.length) ^ 2) /
      ((l.length : ℚ) - 1) := by
  rw [s_sqr, list_sum_map_eq_range_getD, xbar, list_sum_eq_range_getD]

/-- C8: for samples of sizes at least 2, the Welch t statistic has denominator
`sqrt(s1^2/n1 + s2^2/n2)` and the returned degrees of freedom equal
`(s1^2/n1+s2^2/n2)^2 / ((s1^2/n1)^2/(n1-1) + (s2^2/n2)^2/(n2-1))`, with the
sample variances taken with `n-1` denominators; the result can be non-integer
(no integer equals the dof of the sample pair `[0,1,2]`, `[0,0,1,2,2]`). -/
theorem welch_test_formulas (s1 s2 : List ℚ)
    (_h1 : 2 ≤ s1.length) (_h2 : 2 ≤ s2.length) :
    t_score_welch s1 s2 = ((xbar s1 - xbar s2 : ℚ) : ℝ) /
      Real.sqrt ((s_sqr s1 / s1.length + s_sqr s2 / s2.length : ℚ) : ℝ) ∧
    welch_dof s1 s2 =
      (s_sqr s1 / s1.length + s_sqr s2 / s2.length) ^ 2 /
        ((s_sqr s1 / s1.length) ^ 2 / ((s1.length : ℚ) - 1) +
          (s_sqr s2 / s2.length) ^ 2 / ((s2.length : ℚ) - 1)) ∧
    s_sqr s1 = (∑ i ∈ Finset.range s1.length,
        (s1.getD i 0 - (∑ j ∈ Finset.range s1.length, s1.getD j 0) / s1.length) ^ 2) /
      ((s1.length : ℚ) - 1) ∧
    (∀ k : ℤ, welch_dof [0, 1, 2] [0, 0, 1, 2, 2] ≠ (k : ℚ)) := by
  refine ⟨rfl, rfl, s_sqr_spec s1, fun k hk => ?_⟩
  have hval : welch_dof [0, 1, 2] [0, 0, 1, 2, 2] = 256 / 59 := by
    norm_num [welch_dof, get_welchs_ttest_dof, s_sqr, xbar]
  rw [hval] at hk
  have hk' : (256 : ℚ) = k * 59 := by
    field_simp at hk
    linarith
  have : (256 : ℤ) = k * 59 := by exact_mod_cast hk'
  omega

/-- Closed witness for C8 at the samples `[0,1,2]` and `[0,0,1,2,2]`. -/
theorem welch_test_formulas_witness :
    t_score_welch [0, 1, 2] [0, 0, 1, 2, 2] =
      ((xbar [0, 1, 2] - xbar [0, 0, 1, 2, 2] : ℚ) : ℝ) /
        Real.sqrt ((s_sqr [0, 1, 2] / ([0, 1, 2] : List ℚ).length +
          s_sqr [0, 0, 1, 2, 2] / ([0, 0, 1, 2, 2] : List ℚ).length : ℚ) : ℝ) ∧
    welch_dof [0, 1, 2] [0, 0, 1, 2, 2] =
      (s_sqr [0, 1, 2] / ([0, 1, 2] : List ℚ).length +
          s_sqr [0, 0, 1, 2, 2] / ([0, 0, 1, 2, 2] : List ℚ).length) ^ 2 /
        ((s_sqr [0, 1, 2] / ([0, 1, 2] : List ℚ).length) ^ 2 /
            ((([0, 1, 2] : List ℚ).length : ℚ) - 1) +
          (s_sqr [0, 0, 1, 2, 2] / ([0, 0, 1, 2, 2] : List ℚ).length) ^ 2 /
            ((([0, 0, 1, 2, 2] : List ℚ).length : ℚ) - 1)) ∧
    s_sqr [0, 1, 2] = (∑ i ∈ Finset.range ([0, 1, 2] : List ℚ).length,
        (([0, 1, 2] : List ℚ).getD i 0 -
          (∑ j ∈ Finset.range ([0, 1, 2] : List ℚ).length,
            ([0, 1, 2] : List ℚ).getD j 0) / ([0, 1, 2] : List ℚ).length) ^ 2) /
      ((([0, 1, 2] : List ℚ).length : ℚ) - 1) ∧
    (∀ k : ℤ, welch_dof [0, 1, 2] [0, 0, 1, 2, 2] ≠ (k : ℚ)) :=
  welch_test_formulas [0, 1, 2] [0, 0, 1, 2, 2] (by decide) (by decide)

/-! ## Claim C10: paired test with hypothesized difference versus shifted sample -/

theorem list_sum_map_sub_const (l : List ℚ) (d : ℚ) :
    (l.map (fun x => x - d)).sum = l.sum - l.length * d := by
  induction l with
  | nil => simp
  | cons a t ih =>
    simp only [List.map_cons, List.sum_cons, ih, List.length_cons]
    push_cast
    ring

theorem xbar_map_sub_const (l : List ℚ) (d : ℚ) (hne : l ≠ []) :
    xbar (l.map (fun x => x - d)) = xbar l - d := by
  have hn : (l.length : ℚ) ≠ 0 := by
    exact_mod_cast Nat.pos_iff_ne_zero.mp (List.length_pos.mpr hne)
  rw [xbar, xbar, List.length_map, list_sum_map_sub_const]
  field_simp

theorem s_sqr_map_sub_const (l : List ℚ) (d : ℚ) :
    s_sqr (l.map (fun x => x - d)) = s_sqr l := by
  by_cases hne : l = []
  · subst hne
    simp
  · rw [s_sqr, s_sqr, List.length_map, List.map_map]
    congr 1
    refine congrArg List.sum (List.map_congr_left (fun x _ => ?_))
    simp only [Function.comp_apply]
    rw [xbar_map_sub_const l d hne]
    ring

theorem t_score_one_sample_shift (l : List ℚ) (d : ℚ) :
    t_score_one_sample (l.map (fun x => x - d)) 0 = t_score_one_sample l d := by
  by_cases hne : l = []
  · subst hne
    simp [t_score_one_sample, s_sqr, xbar]
  · rw [t_score_one_sample, t_score_one_sample, s_sqr_map_sub_const, List.length_map,
      xbar_map_sub_const l d hne, sub_zero]

theorem deltas_map_sub (s1 s2 : List ℚ) (d : ℚ) :
    deltas s1 (s2.map (fun x => x - d)) = (deltas s1 s2).map (fun x => x - d) := by
  rw [deltas, deltas, List.zipWith_map_left, List.map_zipWith]
  congr 1
  funext a b
  ring

/-- C10: for equal-length samples and any hypothesized difference `d`, the
paired T-test of `(sample1, sample2)` with hypothesized difference `d` produces
the same t statistic, the same degrees of freedom `n - 1`, and hence the same
p-value under any survival function, as the paired T-test with difference 0 of
`(sample1, sample2 - d)`. -/
theorem paired_shift_equivalence (s1 s2 : List ℚ) (d : ℚ)
    (_hlen : s1.length = s2.length) :
    t_score_paired s1 s2 d = t_score_paired s1 (s2.map (fun x => x - d)) 0 ∧
    (deltas s1 (s2.map (fun x => x - d))).length = (deltas s1 s2).length ∧
    ∀ sf : ℝ → ℝ → ℝ,
      sf |t_score_paired s1 s2 d| (((deltas s1 s2).length : ℝ) - 1) =
        sf |t_score_paired s1 (s2.map (fun x => x - d)) 0|
          (((deltas s1 (s2.map (fun x => x - d))).length : ℝ) - 1) := by
  have ht : t_score_paired s1 s2 d = t_score_paired s1 (s2.map (fun x => x - d)) 0 := by
    rw [t_score_paired, t_score_paired, deltas_map_sub, t_score_one_sample_shift]
  have hlen' : (deltas s1 (s2.map (fun x => x - d))).length = (deltas s1 s2).length := by
    rw [deltas_map_sub, List.length_map]
  exact ⟨ht, hlen', fun sf => by rw [ht, hlen']⟩

/-- Closed witness for C10 at the samples `[1,2,3]`, `[4,6,8]` with difference 5. -/
theorem paired_shift_equivalence_witness :
    t_score_paired [1, 2, 3] [4, 6, 8] 5 =
      t_score_paired [1, 2, 3] (([4, 6, 8] : List ℚ).map (fun x => x - 5)) 0 ∧
    (deltas [1, 2, 3] (([4, 6, 8] : List ℚ).map (fun x => x - 5))).length =
      (deltas [1, 2, 3] [4, 6, 8]).length ∧
    ∀ sf : ℝ → ℝ → ℝ,
      sf |t_score_paired [1, 2, 3] [4, 6, 8] 5|
          (((deltas [1, 2, 3] [4, 6, 8]).length : ℝ) - 1) =
        sf |t_score_paired [1, 2, 3] (([4, 6, 8] : List ℚ).map (fun x => x - 5)) 0|
          (((deltas [1, 2, 3] (([4, 6, 8] : List ℚ).map (fun x => x - 5))).length : ℝ) - 1) :=
  paired_shift_equivalence [1, 2, 3] [4, 6, 8] 5 (by decide)

/-! ## Claim C7: one-sample T-test formula and the seed-42 scenario -/

theorem t_score_seed42_eq_sqrt : t_score_one_sample samples_seed42 (1 / 10) =
    Real.sqrt ((9574192573480442964369127996679407 /
      723103516437498877087382899544668 : ℚ) : ℝ) := by
  have hd : xbar samples_seed42 - 1 / 10 = 36982993337634149 / 135107988821114880 := by
    norm_num [xbar, samples_seed42]
  have hv : s_sqr samples_seed42 =
      180775879109374719271845724886167 / 2129653008383425394514461385031680 := by
    norm_num [s_sqr, xbar, samples_seed42]
  have hlen : ((samples_seed42.length : ℕ) : ℝ) = 15 := by norm_num [samples_seed42]
  rw [t_score_one_sample, hd, hv, hlen]
  rw [div_div_eq_mul_div]
  rw [show ((36982993337634149 / 135107988821114880 : ℚ) : ℝ) =
    Real.sqrt (((36982993337634149 / 135107988821114880 : ℚ) : ℝ) ^ 2) from
    (Real.sqrt_sq (by norm_num)).symm]
  rw [show (15 : ℝ) = Real.sqrt 15 ^ 2 * 1 from by
    rw [Real.sq_sqrt (by norm_num)]; ring]
  rw [← Real.sqrt_mul (sq_nonneg _), ← Real.sqrt_div (by positivity)]
  congr 1
  push_cast
  rw [Real.sq_sqrt (by norm_num : (0 : ℝ) ≤ 15)]
  norm_num

/-- C7: the one-sample t statistic is `(mean - mu0)/(s/sqrt n)` with the sample
mean and the `n-1`-denominator sample variance; the modelled calculator returns
it with degrees of freedom `n - 1 = 14` on the seed-42 sample; and on the
seed-42 sample with hypothesized mean `1/10` the statistic is approximately
3.6387 and the one-tailed Student-t p-value is approximately 0.001342. -/
theorem one_sample_t_formula_and_seed42 :
    (∀ (sample : List ℚ) (mu0 : ℚ),
      t_score_one_sample sample mu0 = ((xbar sample - mu0 : ℚ) : ℝ) /
        (Real.sqrt (((∑ i ∈ Finset.range sample.length,
            (sample.getD i 0 - (∑ j ∈ Finset.range sample.length, sample.getD j 0) /
              sample.length) ^ 2) / ((sample.length : ℚ) - 1) : ℚ) : ℝ) /
          Real.sqrt (sample.length : ℝ))) ∧
    one_sample_t samples_seed42 (1 / 10) =
      .ok (t_score_one_sample samples_seed42 (1 / 10), 14) ∧
    |t_score_one_sample samples_seed42 (1 / 10) - 3.6387| < 1 / 1000 ∧
    |t_survival_14 (t_score_one_sample samples_seed42 (1 / 10)) - 0.001342| < 1 / 10000 := by
  have hlen15 : samples_seed42.length = 15 := rfl
  have hv : s_sqr samples_seed42 =
      180775879109374719271845724886167 / 2129653008383425394514461385031680 := by
    norm_num [s_sqr, xbar, samples_seed42]
  refine ⟨?_, ?_, ?_, ?_⟩
  · intro sample mu0
    rw [t_score_one_sample, ← s_sqr_spec]
  · rw [one_sample_t]
    rw [if_neg (by rw [hlen15]; norm_num)]
    rw [if_neg (by rw [hv]; norm_num)]
    rw [hlen15]
    norm_num
  · rw [t_score_seed42_eq_sqrt]
    have hcast : ((9574192573480442964369127996679407 /
        723103516437498877087382899544668 : ℚ) : ℝ) =
        (9574192573480442964369127996679407 / 723103516437498877087382899544668 : ℝ) := by
      push_cast
      ring
    have hlo : (3.6387 : ℝ) < Real.sqrt ((9574192573480442964369127996679407 /
        723103516437498877087382899544668 : ℚ) : ℝ) := by
      rw [hcast]
      exact (Real.lt_sqrt (by norm_num)).mpr (by norm_num)
    have hhi : Real.sqrt ((9574192573480442964369127996679407 /
        723103516437498877087382899544668 : ℚ) : ℝ) < 3.6388 := by
      rw [hcast]
      exact (Real.sqrt_lt' (by norm_num)).mpr (by norm_num)
    rw [abs_lt]
    constructor <;> nlinarith [hlo, hhi]
  · rw [t_score_seed42_eq_sqrt]
    have hQ : (0 : ℝ) ≤ ((9574192573480442964369127996679407 /
        723103516437498877087382899544668 : ℚ) : ℝ) := by
      push_cast
      norm_num
    set x := Real.sqrt ((9574192573480442964369127996679407 /
      723103516437498877087382899544668 : ℚ) : ℝ) with hxdef
    have hx2 : x ^ 2 = ((9574192573480442964369127996679407 /
        723103516437498877087382899544668 : ℚ) : ℝ) := Real.sq_sqrt hQ
    have harg : x ^ 2 + 14 = ((19697641803605427243592488590304759 /
        723103516437498877087382899544668 : ℚ) : ℝ) := by
      rw [hx2]
      push_cast
      norm_num
    have hs : x / Real.sqrt (x ^ 2 + 14) = Real.sqrt
        ((1367741796211491852052732570954201 /
          2813948829086489606227498370043537 : ℚ) : ℝ) := by
      rw [harg, hxdef, ← Real.sqrt_div hQ]
      congr 1
      push_cast
      norm_num
    rw [t_survival_14]
    simp only []
    rw [hs]
    set u := Real.sqrt ((1367741796211491852052732570954201 /
      2813948829086489606227498370043537 : ℚ) : ℝ) with hudef
    have hR : (0 : ℝ) ≤ ((1367741796211491852052732570954201 /
        2813948829086489606227498370043537 : ℚ) : ℝ) := by
      push_cast
      norm_num
    have hu2 : u ^ 2 = ((1367741796211491852052732570954201 /
        2813948829086489606227498370043537 : ℚ) : ℝ) := Real.sq_sqrt hR
    have e3 : u ^ 3 = ((1367741796211491852052732570954201 /
        2813948829086489606227498370043537 : ℚ) : ℝ) * u := by
      rw [show u ^ 3 = u ^ 2 * u from by ring, hu2]
    have e5 : u ^ 5 = ((1367741796211491852052732570954201 /
        2813948829086489606227498370043537 : ℚ) : ℝ) ^ 2 * u := by
      rw [show u ^ 5 = (u ^ 2) ^ 2 * u from by ring, hu2]
    have e7 : u ^ 7 = ((1367741796211491852052732570954201 /
        2813948829086489606227498370043537 : ℚ) : ℝ) ^ 3 * u := by
      rw [show u ^ 7 = (u ^ 2) ^ 3 * u from by ring, hu2]
    have e9 : u ^ 9 = ((1367741796211491852052732570954201 /
        2813948829086489606227498370043537 : ℚ) : ℝ) ^ 4 * u := by
      rw [show u ^ 9 = (u ^ 2) ^ 4 * u from by ring, hu2]
    have e11 : u ^ 11 = ((1367741796211491852052732570954201 /
        2813948829086489606227498370043537 : ℚ) : ℝ) ^ 5 * u := by
      rw [show u ^ 11 = (u ^ 2) ^ 5 * u from by ring, hu2]
    have e13 : u ^ 13 = ((1367741796211491852052732570954201 /
        2813948829086489606227498370043537 : ℚ) : ℝ) ^ 6 * u := by
      rw [show u ^ 13 = (u ^ 2) ^ 6 * u from by ring, hu2]
    rw [e3, e5, e7, e9, e11, e13]
    have hu_lo : (6971784 / 10000000 : ℝ) < u := by
      rw [hudef]
      refine (Real.lt_sqrt (by norm_num)).mpr ?_
      push_cast
      norm_num
    have hu_hi : u < (6971785 / 10000000 : ℝ) := by
      rw [hudef]
      refine (Real.sqrt_lt' (by norm_num)).mpr ?_
      push_cast
      norm_num
    rw [abs_lt]
    push_cast
    constructor <;> nlinarith [hu_lo, hu_hi]
